import Mathlib

/-!
Shallow embedding of the Azure direct-mode resource cache
(`cluster-autoscaler/cloudprovider/azure/azure_direct_cache.go`) and proofs
of its specified behaviour.

The build-side helpers (`convertResourceGroupNameToLower`, the
`virtualMachineRE` pattern, and the `skewer` SKU client) are external to the
file under study; the direct cache calls them as black boxes, so they are
taken here as function parameters (`normalize`, `vmRE`, `newCache`,
`cacheGet`) and the theorems quantify over them.  Remote-API listing results
are passed in as explicit `Except` values standing for the client calls.
-/

namespace AzureDirect

/-- Go `strings.EqualFold`, embedded as rune-wise lower-case comparison. -/
def equalFold (a b : String) : Bool :=
  a.data.map Char.toLower == b.data.map Char.toLower

/-- `cloudprovider.Instance`: only the `Id` field is read by the direct cache. -/
structure Instance where
  id : String
deriving Repr, DecidableEq

/-- A `cloudprovider.NodeGroup` as the direct cache observes it: its `Id()`,
`MinSize()`, `MaxSize()` and the outcome of one `Nodes()` call (either the
member-instance list or an error). -/
structure NodeGroup where
  id : String
  minSize : Int
  maxSize : Int
  nodes : Except String (List Instance)
deriving Repr

/-- `DirectResourceCache.Register`: walk the registered list; on the first
case-insensitive id match, return unchanged with `false` when min/max agree,
otherwise replace that record in place and return `true`; with no match,
append and return `true`. -/
def register : List NodeGroup → NodeGroup → List NodeGroup × Bool
  | [], ng => ([ng], true)
  | existing :: rest, ng =>
    if equalFold existing.id ng.id then
      if existing.minSize == ng.minSize && existing.maxSize == ng.maxSize then
        (existing :: rest, false)
      else
        (ng :: rest, true)
    else
      let r := register rest ng
      (existing :: r.1, r.2)

/-- `DirectResourceCache.Unregister`: drop every case-insensitive id match,
reporting whether anything was dropped. -/
def unregister : List NodeGroup → NodeGroup → List NodeGroup × Bool
  | [], _ => ([], false)
  | existing :: rest, ng =>
    let r := unregister rest ng
    if equalFold existing.id ng.id then (r.1, true)
    else (existing :: r.1, r.2)

/-- Go map write `m[k] = v` on an association list: overwrite the existing
key or append a fresh binding. -/
def mapInsert {α : Type} (m : List (String × α)) (k : String) (v : α) :
    List (String × α) :=
  if m.any (fun p => p.1 == k) then
    m.map (fun p => if p.1 == k then (k, v) else p)
  else m ++ [(k, v)]

/-- `compute.Flexible`. -/
def flexibleMode : String := "Flexible"

/-- `compute.Uniform`. -/
def uniformMode : String := "Uniform"

/-- `providerazureconsts.VMTypeVMSS`. -/
def vmTypeVMSS : String := "vmss"

/-- `providerazureconsts.VMTypeStandard`. -/
def vmTypeStandard : String := "standard"

/-- `armcontainerservice.AgentPoolTypeVirtualMachines`. -/
def agentPoolTypeVirtualMachines : String := "VirtualMachines"

/-- A `compute.VirtualMachineScaleSet`: the direct cache reads its name and
its orchestration mode. -/
structure VirtualMachineScaleSet where
  name : String
  orchestrationMode : String
deriving Repr, DecidableEq

/-- `DirectResourceCache.getScaleSets`: on a listing error return the empty
map, otherwise key each scale set by name. -/
def getScaleSets (listResult : Except String (List VirtualMachineScaleSet)) :
    List (String × VirtualMachineScaleSet) :=
  match listResult with
  | .error _ => []
  | .ok result => result.foldl (fun sets vmss => mapInsert sets vmss.name vmss) []

/-- A `compute.VirtualMachine`: a nil-able tag map (`map[string]*string`). -/
structure VirtualMachine where
  name : String
  tags : Option (List (String × Option String))
deriving Repr, DecidableEq

/-- The primary agent-pool name tag key (repository constant). -/
def agentpoolNameTag : String := "poolName"

/-- The legacy agent-pool name tag key (repository constant). -/
def legacyAgentpoolNameTag : String := "agentpool"

/-- Go `tags[k]` on a `map[string]*string`: an absent key and a nil value
both read as `none`. -/
def tagLookup (tags : List (String × Option String)) (k : String) : Option String :=
  match tags.find? (fun p => p.1 == k) with
  | some p => p.2
  | none => none

/-- Go `m[k] = append(m[k], v)` on an association list of lists. -/
def mapAppendVM (m : List (String × List VirtualMachine)) (k : String)
    (v : VirtualMachine) : List (String × List VirtualMachine) :=
  if m.any (fun p => p.1 == k) then
    m.map (fun p => if p.1 == k then (p.1, p.2 ++ [v]) else p)
  else m ++ [(k, [v])]

/-- `DirectResourceCache.getVirtualMachines`: on a listing error return the
empty map; otherwise group instances by the pool-name tag, falling back to
the legacy tag key, and drop instances carrying neither. -/
def getVirtualMachines (listResult : Except String (List VirtualMachine)) :
    List (String × List VirtualMachine) :=
  match listResult with
  | .error _ => []
  | .ok result =>
    result.foldl (fun instances inst =>
      match inst.tags with
      | none => instances
      | some tags =>
        match tagLookup tags agentpoolNameTag with
        | some poolName => mapAppendVM instances poolName inst
        | none =>
          match tagLookup tags legacyAgentpoolNameTag with
          | some poolName => mapAppendVM instances poolName inst
          | none => instances) []

/-- `armcontainerservice.AgentPoolProperties` with its nil-able type field. -/
structure AgentPoolProperties where
  poolType : Option String
deriving Repr, DecidableEq

/-- An `armcontainerservice.AgentPool` with nil-able name and properties. -/
structure AgentPool where
  name : Option String
  properties : Option AgentPoolProperties
deriving Repr, DecidableEq

/-- The pager loop of `getVMsPoolMap`: accumulate page contents in order,
aborting with the first page error. -/
def collectPages :
    List (Except String (List (Option AgentPool))) →
    Except String (List (Option AgentPool))
  | [] => .ok []
  | page :: rest =>
    match page with
    | .error e => .error e
    | .ok v =>
      match collectPages rest with
      | .error e => .error e
      | .ok vs => .ok (v ++ vs)

/-- The filtering loop of `getVMsPoolMap`: keep pools whose pointer, name,
properties and type are all non-nil and whose type is `VirtualMachines`. -/
def vmsPoolFilter (aps : List (Option AgentPool)) : List (String × AgentPool) :=
  aps.foldl (fun m ap? =>
    match ap? with
    | none => m
    | some ap =>
      match ap.name, ap.properties with
      | some n, some props =>
        match props.poolType with
        | some t =>
          if t == agentPoolTypeVirtualMachines then mapInsert m n ap else m
        | none => m
      | _, _ => m) []

/-- `DirectResourceCache.getVMsPoolMap`: empty unless the VMs-agent-pool
feature is on and a client exists; any page error yields the empty map. -/
def getVMsPoolMap (enableVMsAgentPool hasAgentPoolClient : Bool)
    (pages : List (Except String (List (Option AgentPool)))) :
    List (String × AgentPool) :=
  if !enableVMsAgentPool || !hasAgentPoolClient then []
  else
    match collectPages pages with
    | .error _ => []
    | .ok aps => vmsPoolFilter aps

/-- Errors observed by direct-cache callers: a reference that fails to
normalize, or `cloudprovider.ErrNotImplemented`. -/
inductive GoError where
  | invalidRef (msg : String)
  | notImplemented
deriving Repr, DecidableEq

/-- The remote-client inputs one `FindForInstance` call consumes. -/
structure ClientData where
  scaleSetsResult : Except String (List VirtualMachineScaleSet)
  vmsPoolPages : List (Except String (List (Option AgentPool)))
  hasAgentPoolClient : Bool

/-- Whether one registered group's `Nodes()` call succeeds and lists a
case-insensitive match for `resourceID`. -/
def groupOwns (ng : NodeGroup) (resourceID : String) : Bool :=
  match ng.nodes with
  | .error _ => false
  | .ok instances => instances.any (fun inst => equalFold inst.id resourceID)

/-- The registered-group scan shared by `FindForInstance`: groups whose
`Nodes()` errors are skipped; the first group listing a case-insensitive
match wins. -/
def searchRegisteredGroups : List NodeGroup → String → Option NodeGroup
  | [], _ => none
  | ng :: rest, resourceID =>
    match ng.nodes with
    | .error _ => searchRegisteredGroups rest resourceID
    | .ok instances =>
      if instances.any (fun inst => equalFold inst.id resourceID) then some ng
      else searchRegisteredGroups rest resourceID

/-- Steps 4-5 of `FindForInstance`: the standard-kind pattern check followed
by the registered-group scan. -/
def findSearchPhase (vmRE : String → Bool) (groups : List NodeGroup)
    (resourceID vmType : String) : Option NodeGroup × Option GoError :=
  if vmType == vmTypeStandard && !(vmRE resourceID) then (none, none)
  else (searchRegisteredGroups groups resourceID, none)

/-- `DirectResourceCache.FindForInstance`. -/
def findForInstance (normalize : String → Except GoError String)
    (vmRE : String → Bool) (client : ClientData) (enableVMsAgentPool : Bool)
    (groups : List NodeGroup) (instanceName vmType : String) :
    Option NodeGroup × Option GoError :=
  let vmsPoolMap :=
    getVMsPoolMap enableVMsAgentPool client.hasAgentPoolClient client.vmsPoolPages
  match normalize instanceName with
  | .error e => (none, some e)
  | .ok resourceID =>
    if vmType == vmTypeVMSS && vmsPoolMap.isEmpty then
      let scaleSets := getScaleSets client.scaleSetsResult
      let allUniform :=
        scaleSets.all (fun p => !(p.2.orchestrationMode == flexibleMode))
      if allUniform && vmRE resourceID then (none, none)
      else findSearchPhase vmRE groups resourceID vmType
    else findSearchPhase vmRE groups resourceID vmType

/-- The registered-group scan of `HasInstance`: same skipping and matching
as `FindForInstance`, but a miss ends in `ErrNotImplemented`. -/
def hasInstanceSearch : List NodeGroup → String → Bool × Option GoError
  | [], _ => (false, some GoError.notImplemented)
  | ng :: rest, resourceID =>
    match ng.nodes with
    | .error _ => hasInstanceSearch rest resourceID
    | .ok instances =>
      if instances.any (fun inst => equalFold inst.id resourceID) then (true, none)
      else hasInstanceSearch rest resourceID

/-- `DirectResourceCache.HasInstance`. -/
def hasInstance (normalize : String → Except GoError String)
    (groups : List NodeGroup) (providerID : String) : Bool × Option GoError :=
  match normalize providerID with
  | .error e => (false, some e)
  | .ok resourceID => hasInstanceSearch groups resourceID

/-- A `skewer.SKU` result. -/
structure SKU where
  name : String
deriving Repr, DecidableEq

/-- `DirectResourceCache.GetSKU`: reject an empty location, otherwise build
a throw-away location-scoped cache (`newCache`) and resolve through it
(`cacheGet`), propagating either error verbatim. -/
def getSKU {C : Type} (newCache : String → Except String C)
    (cacheGet : C → String → String → Except String SKU)
    (skuName location : String) : Except String SKU :=
  if location == "" then .error "location not specified"
  else
    match newCache location with
    | .error e => .error e
    | .ok cache => cacheGet cache skuName location

/-- The direct cache's only retained state: the registered-group list. -/
structure DirectResourceCache where
  registeredNodeGroups : List NodeGroup
deriving Repr

/-- `DirectResourceCache.HasVMSKUs`: constantly `false`. -/
def hasVMSKUs (_d : DirectResourceCache) : Bool := false

/-- One `GetSKU` call viewed as a state transition: it reads no field of
the receiver and writes none, so the state passes through unchanged. -/
def getSKUStep {C : Type} (d : DirectResourceCache)
    (newCache : String → Except String C)
    (cacheGet : C → String → String → Except String SKU)
    (skuName location : String) : Except String SKU × DirectResourceCache :=
  (getSKU newCache cacheGet skuName location, d)

/-! ## Helper lemmas -/

theorem unregister_characterize (groups : List NodeGroup) (ng : NodeGroup) :
    unregister groups ng =
      (groups.filter (fun g => !(equalFold g.id ng.id)),
       groups.any (fun g => equalFold g.id ng.id)) := by
  induction groups with
  | nil => rfl
  | cons a rest ih =>
    simp only [unregister, ih, List.filter_cons, List.any_cons]
    cases h : equalFold a.id ng.id <;> simp [h]

theorem collectPages_error
    (pages : List (Except String (List (Option AgentPool))))
    (h : ∃ s, Except.error s ∈ pages) :
    ∃ t, collectPages pages = Except.error t := by
  induction pages with
  | nil => obtain ⟨s, hs⟩ := h; simp at hs
  | cons p rest ih =>
    obtain ⟨s, hs⟩ := h
    rcases List.mem_cons.mp hs with h1 | h1
    · cases p with
      | error e => exact ⟨e, rfl⟩
      | ok v => exact absurd h1 (by simp)
    · cases p with
      | error e => exact ⟨e, rfl⟩
      | ok v =>
        obtain ⟨t, ht⟩ := ih ⟨s, h1⟩
        exact ⟨t, by simp [collectPages, ht]⟩

theorem searchRegisteredGroups_eq_find (groups : List NodeGroup) (rid : String) :
    searchRegisteredGroups groups rid
      = groups.find? (fun ng => groupOwns ng rid) := by
  induction groups with
  | nil => rfl
  | cons ng rest ih =>
    show (match ng.nodes with
      | .error _ => searchRegisteredGroups rest rid
      | .ok instances =>
        if instances.any (fun inst => equalFold inst.id rid) then some ng
        else searchRegisteredGroups rest rid)
      = List.find? (fun ng => groupOwns ng rid) (ng :: rest)
    cases hn : ng.nodes with
    | error e =>
      rw [List.find?_cons_of_neg, ih]
      simp [groupOwns, hn]
    | ok instances =>
      show (if (instances.any fun inst => equalFold inst.id rid) = true
            then some ng else searchRegisteredGroups rest rid)
          = List.find? (fun ng => groupOwns ng rid) (ng :: rest)
      by_cases hany : (instances.any fun inst => equalFold inst.id rid) = true
      · rw [if_pos hany, List.find?_cons_of_pos]
        simp [groupOwns, hn, hany]
      · rw [if_neg hany, List.find?_cons_of_neg, ih]
        simp [groupOwns, hn]
        simpa using hany

theorem hasInstanceSearch_characterize (groups : List NodeGroup) (rid : String) :
    hasInstanceSearch groups rid
      = if groups.any (fun ng => groupOwns ng rid) then (true, none)
        else (false, some GoError.notImplemented) := by
  induction groups with
  | nil => rfl
  | cons ng rest ih =>
    show (match ng.nodes with
      | .error _ => hasInstanceSearch rest rid
      | .ok instances =>
        if instances.any (fun inst => equalFold inst.id rid) then (true, none)
        else hasInstanceSearch rest rid)
      = if (ng :: rest).any (fun ng => groupOwns ng rid) then (true, none)
        else (false, some GoError.notImplemented)
    cases hn : ng.nodes with
    | error e =>
      rw [ih]
      simp [List.any_cons, groupOwns, hn]
    | ok instances =>
      show (if (instances.any fun inst => equalFold inst.id rid) = true
            then (true, none) else hasInstanceSearch rest rid)
          = if ((ng :: rest).any fun ng => groupOwns ng rid) = true
            then (true, none) else (false, some GoError.notImplemented)
      by_cases hany : (instances.any fun inst => equalFold inst.id rid) = true
      · rw [if_pos hany]
        simp [List.any_cons, groupOwns, hn, hany]
      · rw [if_neg hany, ih]
        simp only [List.any_cons, groupOwns, hn]
        simp only [Bool.not_eq_true] at hany
        simp [hany]

theorem findForInstance_parse_ok (normalize : String → Except GoError String)
    (vmRE : String → Bool) (client : ClientData) (enable : Bool)
    (groups : List NodeGroup) (ref rid vmType : String)
    (hparse : normalize ref = .ok rid) :
    findForInstance normalize vmRE client enable groups ref vmType
      = if vmType == vmTypeVMSS
            && (getVMsPoolMap enable client.hasAgentPoolClient
                client.vmsPoolPages).isEmpty then
          if (getScaleSets client.scaleSetsResult).all
                (fun p => !(p.2.orchestrationMode == flexibleMode))
              && vmRE rid then (none, none)
          else findSearchPhase vmRE groups rid vmType
        else findSearchPhase vmRE groups rid vmType := by
  simp only [findForInstance, hparse]

/-! ## Claim theorems -/

/-- C6: `Unregister` removes every entry whose id matches case-insensitively
and returns `true` exactly when at least one entry was removed; for an id
with no registered match it returns `false` and leaves the list unchanged. -/
theorem unregister_correct (groups : List NodeGroup) (ng : NodeGroup) :
    unregister groups ng =
      (groups.filter (fun g => !(equalFold g.id ng.id)),
       groups.any (fun g => equalFold g.id ng.id))
    ∧ ((unregister groups ng).2 = false → (unregister groups ng).1 = groups) := by
  have hch := unregister_characterize groups ng
  refine ⟨hch, ?_⟩
  intro h
  rw [hch] at h ⊢
  have h2 : ∀ a ∈ groups, ¬(equalFold a.id ng.id = true) := List.any_eq_false.mp h
  show groups.filter _ = groups
  rw [List.filter_eq_self]
  intro a ha
  simp [h2 a ha]

/-- C6 witness: unregistering an id with no registered match returns `false`
and leaves the one-element list unchanged. -/
theorem unregister_correct_witness :
    ((unregister [⟨"a", 1, 3, .ok []⟩] ⟨"b", 1, 3, .ok []⟩).2 = false) ∧
    (unregister [⟨"a", 1, 3, .ok []⟩] ⟨"b", 1, 3, .ok []⟩).1
      = [⟨"a", 1, 3, .ok []⟩] :=
  ⟨rfl, (unregister_correct [⟨"a", 1, 3, .ok []⟩] ⟨"b", 1, 3, .ok []⟩).2 rfl⟩

/-- C7: each direct-mode listing accessor turns a remote failure — including
a failure on any agent-pool page — into an empty result map; the accessors
return bare maps, so no error value reaches the caller. -/
theorem listing_accessors_degrade (e1 e2 : String) (enable hasClient : Bool)
    (pages : List (Except String (List (Option AgentPool)))) :
    getScaleSets (.error e1) = []
    ∧ getVirtualMachines (.error e2) = []
    ∧ ((∃ s, Except.error s ∈ pages) →
        getVMsPoolMap enable hasClient pages = []) := by
  refine ⟨rfl, rfl, ?_⟩
  intro h
  obtain ⟨t, ht⟩ := collectPages_error pages h
  cases enable <;> cases hasClient <;> simp [getVMsPoolMap, ht]

/-- C7 witness: a single failing agent-pool page yields the empty pool map
even with the feature enabled and a client present. -/
theorem listing_accessors_degrade_witness :
    (∃ s, Except.error s ∈
      ([Except.error "boom"] : List (Except String (List (Option AgentPool)))))
    ∧ getVMsPoolMap true true [Except.error "boom"] = [] :=
  ⟨⟨"boom", by simp⟩,
   (listing_accessors_degrade "x" "y" true true [Except.error "boom"]).2.2
     ⟨"boom", by simp⟩⟩

/-- C8: direct-mode `HasVMSKUs` reports `false` in every state, both before
and after any sequence of `GetSKU` calls; no call alters the retained
state, so no persistent SKU table ever appears. -/
theorem hasVMSKUs_always_false {C : Type} (d : DirectResourceCache)
    (newCache : String → Except String C)
    (cacheGet : C → String → String → Except String SKU)
    (calls : List (String × String)) :
    hasVMSKUs d = false
    ∧ hasVMSKUs (calls.foldl
        (fun s a => (getSKUStep s newCache cacheGet a.1 a.2).2) d) = false :=
  ⟨rfl, rfl⟩

/-- C9: `GetSKU` with an empty location fails with the same synchronous
error for every client environment (so no remote call can be involved);
with a non-empty location, an error from cache construction or from SKU
resolution is returned unchanged. -/
theorem getSKU_errors {C : Type} (newCache : String → Except String C)
    (cacheGet : C → String → String → Except String SKU)
    (skuName location : String) (hloc : location ≠ "") :
    getSKU newCache cacheGet skuName "" = .error "location not specified"
    ∧ (∀ e, newCache location = .error e →
        getSKU newCache cacheGet skuName location = .error e)
    ∧ (∀ c e, newCache location = .ok c →
        cacheGet c skuName location = .error e →
        getSKU newCache cacheGet skuName location = .error e) := by
  refine ⟨rfl, ?_, ?_⟩
  · intro e he
    simp [getSKU, hloc, he]
  · intro c e hc hg
    simp [getSKU, hloc, hc, hg]

/-- C9 witness: with a failing cache constructor, the empty location fails
with the configuration error and a real location propagates the
constructor's error verbatim. -/
theorem getSKU_errors_witness :
    ("westus" : String) ≠ ""
    ∧ getSKU (fun _ => (Except.error "down" : Except String Unit))
        (fun _ _ _ => Except.error "nope") "sku" ""
      = Except.error "location not specified"
    ∧ getSKU (fun _ => (Except.error "down" : Except String Unit))
        (fun _ _ _ => Except.error "nope") "sku" "westus"
      = Except.error "down" :=
  ⟨by decide,
   (getSKU_errors (fun _ => (Except.error "down" : Except String Unit))
     (fun _ _ _ => Except.error "nope") "sku" "westus" (by decide)).1,
   (getSKU_errors (fun _ => (Except.error "down" : Except String Unit))
     (fun _ _ _ => Except.error "nope") "sku" "westus" (by decide)).2.1
     "down" rfl⟩

theorem findForInstance_no_owner (normalize : String → Except GoError String)
    (vmRE : String → Bool) (client : ClientData) (enable : Bool)
    (groups : List NodeGroup) (ref rid vmType : String)
    (hparse : normalize ref = .ok rid)
    (hnone : searchRegisteredGroups groups rid = none) :
    findForInstance normalize vmRE client enable groups ref vmType
      = (none, none) := by
  rw [findForInstance_parse_ok _ _ _ _ _ _ _ _ hparse]
  simp only [findSearchPhase, hnone, ite_self]

/-- C3: with a parsed reference that no pattern check dismisses,
`FindForInstance` scans registered groups in registration order and compares
member ids to the normalized reference case-insensitively; the first group
with a matching member is returned with no error, and with no matching
member anywhere the result is `(none, no error)`, not an error. -/
theorem findForInstance_search_order (normalize : String → Except GoError String)
    (vmRE : String → Bool) (client : ClientData) (enable : Bool)
    (groups : List NodeGroup) (ref rid vmType : String)
    (hparse : normalize ref = .ok rid)
    (hA : vmType = vmTypeVMSS →
      (getVMsPoolMap enable client.hasAgentPoolClient
        client.vmsPoolPages).isEmpty = true →
      ((getScaleSets client.scaleSetsResult).all
          (fun p => !(p.2.orchestrationMode == flexibleMode)) && vmRE rid) = false)
    (hB : vmType = vmTypeStandard → vmRE rid = true) :
    findForInstance normalize vmRE client enable groups ref vmType
      = (searchRegisteredGroups groups rid, none)
    ∧ searchRegisteredGroups groups rid
        = groups.find? (fun ng => groupOwns ng rid)
    ∧ (groups.all (fun ng => !(groupOwns ng rid)) = true →
        findForInstance normalize vmRE client enable groups ref vmType
          = (none, none)) := by
  have hphase : findSearchPhase vmRE groups rid vmType
      = (searchRegisteredGroups groups rid, none) := by
    by_cases hs : (vmType == vmTypeStandard) = true
    · have hr : vmRE rid = true := hB (beq_iff_eq.mp hs)
      simp [findSearchPhase, hr]
    · simp only [Bool.not_eq_true] at hs
      simp [findSearchPhase, hs]
  have hmain : findForInstance normalize vmRE client enable groups ref vmType
      = (searchRegisteredGroups groups rid, none) := by
    rw [findForInstance_parse_ok _ _ _ _ _ _ _ _ hparse]
    by_cases ha : (vmType == vmTypeVMSS
        && (getVMsPoolMap enable client.hasAgentPoolClient
            client.vmsPoolPages).isEmpty) = true
    · rw [if_pos ha]
      simp only [Bool.and_eq_true, beq_iff_eq] at ha
      rw [hA ha.1 ha.2]
      rw [if_neg (by simp)]
      exact hphase
    · rw [if_neg ha]
      exact hphase
  refine ⟨hmain, searchRegisteredGroups_eq_find groups rid, ?_⟩
  intro hall
  refine findForInstance_no_owner _ _ _ _ _ _ _ _ hparse ?_
  rw [searchRegisteredGroups_eq_find]
  refine List.find?_eq_none.mpr ?_
  intro ng hng
  have h1 := List.all_eq_true.mp hall ng hng
  simp only [Bool.not_eq_true'] at h1
  simp [h1]

/-- C3 witness: the single registered group owning the instance (up to
case) is found under the standalone kind with a matching pattern. -/
theorem findForInstance_search_order_witness :
    findForInstance (fun s => .ok s) (fun _ => true)
      ⟨.ok [], [], false⟩ false
      [⟨"g1", 1, 5, .ok [⟨"VM-1"⟩]⟩] "vm-1" vmTypeStandard
      = (some ⟨"g1", 1, 5, .ok [⟨"VM-1"⟩]⟩, none) := by
  have h := (findForInstance_search_order (fun s => .ok s) (fun _ => true)
    ⟨.ok [], [], false⟩ false [⟨"g1", 1, 5, .ok [⟨"VM-1"⟩]⟩]
    "vm-1" "vm-1" vmTypeStandard rfl
    (fun h1 _ => absurd h1 (by decide)) (fun _ => rfl)).1
  rw [h]
  rfl

/-- C4: direct-mode `HasInstance` answers `(true, no error)` when some
registered group's member list has a case-insensitive match, and a
distinguished not-implemented error — not a plain `(false, no error)` —
when no group claims the id, unlike `FindForInstance`'s plain not-found. -/
theorem hasInstance_asymmetry (normalize : String → Except GoError String)
    (groups : List NodeGroup) (pid rid : String)
    (hparse : normalize pid = .ok rid) :
    (groups.any (fun ng => groupOwns ng rid) = true →
      hasInstance normalize groups pid = (true, none))
    ∧ (groups.any (fun ng => groupOwns ng rid) = false →
      hasInstance normalize groups pid
        = (false, some GoError.notImplemented)) := by
  constructor <;> intro h <;>
    simp [hasInstance, hparse, hasInstanceSearch_characterize, h]

/-- C4 witness: a claimed id answers `(true, none)`; an unclaimed id
answers the not-implemented error rather than a plain miss. -/
theorem hasInstance_asymmetry_witness :
    hasInstance (fun s => .ok s) [⟨"g1", 1, 5, .ok [⟨"VM-1"⟩]⟩] "vm-1"
      = (true, none)
    ∧ hasInstance (fun s => .ok s) [⟨"g1", 1, 5, .ok [⟨"VM-2"⟩]⟩] "vm-1"
      = (false, some GoError.notImplemented) :=
  ⟨(hasInstance_asymmetry (fun s => .ok s) [⟨"g1", 1, 5, .ok [⟨"VM-1"⟩]⟩]
      "vm-1" "vm-1" rfl).1 rfl,
   (hasInstance_asymmetry (fun s => .ok s) [⟨"g1", 1, 5, .ok [⟨"VM-2"⟩]⟩]
      "vm-1" "vm-1" rfl).2 rfl⟩

/-- C5: under the standalone kind, a parsed reference that fails the
plain-virtual-machine pattern is skipped with `(none, no error)` for every
registered-group list, so no group is ever searched. -/
theorem findForInstance_standalone_skip (normalize : String → Except GoError String)
    (vmRE : String → Bool) (client : ClientData) (enable : Bool)
    (ref rid : String) (hparse : normalize ref = .ok rid)
    (hpat : vmRE rid = false) :
    ∀ groups, findForInstance normalize vmRE client enable groups ref
      vmTypeStandard = (none, none) := by
  intro groups
  rw [findForInstance_parse_ok _ _ _ _ _ _ _ _ hparse]
  have hvm : (vmTypeStandard == vmTypeVMSS) = false := by decide
  simp [hvm, findSearchPhase, hpat]

/-- C5 witness: a non-matching reference under the standalone kind is
skipped even though a registered group would list it. -/
theorem findForInstance_standalone_skip_witness :
    findForInstance (fun s => .ok s) (fun _ => false)
      ⟨.ok [], [], false⟩ false [⟨"g1", 1, 5, .ok [⟨"vm-1"⟩]⟩]
      "vm-1" vmTypeStandard = (none, none) :=
  findForInstance_standalone_skip (fun s => .ok s) (fun _ => false)
    ⟨.ok [], [], false⟩ false "vm-1" "vm-1" rfl rfl
    [⟨"g1", 1, 5, .ok [⟨"vm-1"⟩]⟩]

/-- C1: under the scale-set-backed kind with an empty instance-backed-pool
map, an all-uniform scale-set fleet plus a plain-VM-pattern match short-cuts
to `(none, no error)` for every registered-group list (no group search);
with any flexible-orchestration scale set the shortcut is skipped and the
registered-group search proceeds. -/
theorem findForInstance_vmss_uniform_shortcut
    (normalize : String → Except GoError String) (vmRE : String → Bool)
    (client : ClientData) (enable : Bool) (ref rid : String)
    (hparse : normalize ref = .ok rid)
    (hempty : getVMsPoolMap enable client.hasAgentPoolClient
      client.vmsPoolPages = []) :
    ((getScaleSets client.scaleSetsResult).all
        (fun p => p.2.orchestrationMode == uniformMode) = true →
      vmRE rid = true →
      ∀ groups, findForInstance normalize vmRE client enable groups ref
        vmTypeVMSS = (none, none))
    ∧ ((getScaleSets client.scaleSetsResult).any
        (fun p => p.2.orchestrationMode == flexibleMode) = true →
      ∀ groups, findForInstance normalize vmRE client enable groups ref
        vmTypeVMSS = (searchRegisteredGroups groups rid, none)) := by
  constructor
  · intro hall hre groups
    rw [findForInstance_parse_ok _ _ _ _ _ _ _ _ hparse]
    have hcond : (vmTypeVMSS == vmTypeVMSS
        && (getVMsPoolMap enable client.hasAgentPoolClient
            client.vmsPoolPages).isEmpty) = true := by
      simp [hempty]
    rw [if_pos hcond]
    have huni : (getScaleSets client.scaleSetsResult).all
        (fun p => !(p.2.orchestrationMode == flexibleMode)) = true := by
      rw [List.all_eq_true] at hall ⊢
      intro p hp
      have h1 := hall p hp
      have heq : p.2.orchestrationMode = uniformMode := beq_iff_eq.mp h1
      simp [heq, uniformMode, flexibleMode]
    simp [huni, hre]
  · intro hany groups
    rw [findForInstance_parse_ok _ _ _ _ _ _ _ _ hparse]
    have huni : (getScaleSets client.scaleSetsResult).all
        (fun p => !(p.2.orchestrationMode == flexibleMode)) = false := by
      obtain ⟨p, hp, hflex⟩ := List.any_eq_true.mp hany
      by_contra hcon
      simp only [Bool.not_eq_false] at hcon
      have h1 := List.all_eq_true.mp hcon p hp
      simp [hflex] at h1
    have hphase : findSearchPhase vmRE groups rid vmTypeVMSS
        = (searchRegisteredGroups groups rid, none) := by
      have hvs : (vmTypeVMSS == vmTypeStandard) = false := by decide
      simp [findSearchPhase, hvs]
    by_cases hc : (vmTypeVMSS == vmTypeVMSS
        && (getVMsPoolMap enable client.hasAgentPoolClient
            client.vmsPoolPages).isEmpty) = true
    · rw [if_pos hc, huni]
      simpa using hphase
    · rw [if_neg hc]
      exact hphase

/-- C1 witness: an all-uniform fleet skips a plain-VM reference silently
even though a registered group lists it; adding one flexible scale set
makes the search run and find that group. -/
theorem findForInstance_vmss_uniform_shortcut_witness :
    findForInstance (fun s => .ok s) (fun _ => true)
      ⟨.ok [⟨"ss1", "Uniform"⟩], [], false⟩ false
      [⟨"g1", 1, 5, .ok [⟨"vm-1"⟩]⟩] "vm-1" vmTypeVMSS = (none, none)
    ∧ findForInstance (fun s => .ok s) (fun _ => true)
      ⟨.ok [⟨"ss1", "Uniform"⟩, ⟨"ss2", "Flexible"⟩], [], false⟩ false
      [⟨"g1", 1, 5, .ok [⟨"vm-1"⟩]⟩] "vm-1" vmTypeVMSS
      = (some ⟨"g1", 1, 5, .ok [⟨"vm-1"⟩]⟩, none) := by
  constructor
  · exact (findForInstance_vmss_uniform_shortcut (fun s => .ok s) (fun _ => true)
      ⟨.ok [⟨"ss1", "Uniform"⟩], [], false⟩ false "vm-1" "vm-1" rfl rfl).1
      rfl rfl [⟨"g1", 1, 5, .ok [⟨"vm-1"⟩]⟩]
  · have h := (findForInstance_vmss_uniform_shortcut (fun s => .ok s)
      (fun _ => true)
      ⟨.ok [⟨"ss1", "Uniform"⟩, ⟨"ss2", "Flexible"⟩], [], false⟩ false
      "vm-1" "vm-1" rfl rfl).2 rfl [⟨"g1", 1, 5, .ok [⟨"vm-1"⟩]⟩]
    rw [h]
    rfl

/-- C10: a registered group whose member listing fails is skipped by both
`FindForInstance` and `HasInstance`, which behave exactly as if it were not
registered — the listing error never reaches the caller — and when no group
with a successful listing claims the id, the instance is reported unowned
`(none, no error)` by `FindForInstance` and not-implemented by
`HasInstance`. -/
theorem listing_error_skipped (normalize : String → Except GoError String)
    (vmRE : String → Bool) (client : ClientData) (enable : Bool)
    (f : NodeGroup) (err : String) (hf : f.nodes = .error err)
    (rest : List NodeGroup) (ref vmType rid : String)
    (hparse : normalize ref = .ok rid) :
    findForInstance normalize vmRE client enable (f :: rest) ref vmType
      = findForInstance normalize vmRE client enable rest ref vmType
    ∧ hasInstance normalize (f :: rest) ref = hasInstance normalize rest ref
    ∧ ((f :: rest).all (fun ng => !(groupOwns ng rid)) = true →
        findForInstance normalize vmRE client enable (f :: rest) ref vmType
          = (none, none)
        ∧ hasInstance normalize (f :: rest) ref
          = (false, some GoError.notImplemented)) := by
  have hskip : ∀ r, searchRegisteredGroups (f :: rest) r
      = searchRegisteredGroups rest r := by
    intro r
    show (match f.nodes with
      | .error _ => searchRegisteredGroups rest r
      | .ok instances =>
        if instances.any (fun inst => equalFold inst.id r) then some f
        else searchRegisteredGroups rest r) = searchRegisteredGroups rest r
    rw [hf]
  have hskip2 : ∀ r, hasInstanceSearch (f :: rest) r
      = hasInstanceSearch rest r := by
    intro r
    show (match f.nodes with
      | .error _ => hasInstanceSearch rest r
      | .ok instances =>
        if instances.any (fun inst => equalFold inst.id r) then (true, none)
        else hasInstanceSearch rest r) = hasInstanceSearch rest r
    rw [hf]
  refine ⟨?_, ?_, ?_⟩
  · rw [findForInstance_parse_ok _ _ _ _ _ _ _ _ hparse,
      findForInstance_parse_ok _ _ _ _ _ _ _ _ hparse]
    simp only [findSearchPhase, hskip]
  · unfold hasInstance
    rw [hparse]
    exact hskip2 rid
  · intro hall
    have hany : (f :: rest).any (fun ng => groupOwns ng rid) = false := by
      refine List.any_eq_false.mpr ?_
      intro ng hng
      have h1 := List.all_eq_true.mp hall ng hng
      simp only [Bool.not_eq_true'] at h1
      simp [h1]
    refine ⟨?_, ?_⟩
    · refine findForInstance_no_owner _ _ _ _ _ _ _ _ hparse ?_
      rw [searchRegisteredGroups_eq_find]
      refine List.find?_eq_none.mpr ?_
      intro ng hng
      have h1 := List.all_eq_true.mp hall ng hng
      simp only [Bool.not_eq_true'] at h1
      simp [h1]
    · simp [hasInstance, hparse, hasInstanceSearch_characterize, hany]

/-- C10 witness: with one failing group registered ahead of a healthy one,
both lookups behave as if the failing group were absent; and when the only
group listing the id is the failing one, the id is reported unowned and
not-implemented respectively. -/
theorem listing_error_skipped_witness :
    findForInstance (fun s => .ok s) (fun _ => true) ⟨.ok [], [], false⟩ false
      [⟨"bad", 1, 5, .error "api down"⟩, ⟨"g1", 1, 5, .ok [⟨"vm-1"⟩]⟩]
      "vm-1" vmTypeStandard
      = findForInstance (fun s => .ok s) (fun _ => true) ⟨.ok [], [], false⟩
        false [⟨"g1", 1, 5, .ok [⟨"vm-1"⟩]⟩] "vm-1" vmTypeStandard
    ∧ findForInstance (fun s => .ok s) (fun _ => true) ⟨.ok [], [], false⟩
        false [⟨"bad", 1, 5, .error "api down"⟩] "vm-1" vmTypeStandard
      = (none, none)
    ∧ hasInstance (fun s => .ok s) [⟨"bad", 1, 5, .error "api down"⟩] "vm-1"
      = (false, some GoError.notImplemented) := by
  refine ⟨?_, ?_, ?_⟩
  · exact (listing_error_skipped (fun s => .ok s) (fun _ => true)
      ⟨.ok [], [], false⟩ false ⟨"bad", 1, 5, .error "api down"⟩ "api down"
      rfl [⟨"g1", 1, 5, .ok [⟨"vm-1"⟩]⟩] "vm-1" vmTypeStandard "vm-1" rfl).1
  · exact ((listing_error_skipped (fun s => .ok s) (fun _ => true)
      ⟨.ok [], [], false⟩ false ⟨"bad", 1, 5, .error "api down"⟩ "api down"
      rfl [] "vm-1" vmTypeStandard "vm-1" rfl).2.2 rfl).1
  · exact ((listing_error_skipped (fun s => .ok s) (fun _ => true)
      ⟨.ok [], [], false⟩ false ⟨"bad", 1, 5, .error "api down"⟩ "api down"
      rfl [] "vm-1" vmTypeStandard "vm-1" rfl).2.2 rfl).2

/-- C2: `Register` matches case-insensitively on group id: with no match the
group is appended and `true` returned; with a match of identical min and max
the list is unchanged and `false` returned; with a match of different min or
max that record is replaced in place (same position, registered count
unchanged) and `true` returned. -/
theorem register_correct (groups : List NodeGroup) (ng : NodeGroup) :
    (groups.find? (fun h => equalFold h.id ng.id) = none →
      register groups ng = (groups ++ [ng], true))
    ∧ (∀ g, groups.find? (fun h => equalFold h.id ng.id) = some g →
        ((g.minSize = ng.minSize ∧ g.maxSize = ng.maxSize →
            register groups ng = (groups, false))
         ∧ (¬(g.minSize = ng.minSize ∧ g.maxSize = ng.maxSize) →
            register groups ng
              = (groups.set (groups.findIdx (fun h => equalFold h.id ng.id)) ng,
                 true)
            ∧ (register groups ng).1.length = groups.length))) := by
  induction groups with
  | nil =>
    refine ⟨fun _ => rfl, ?_⟩
    intro g hg
    simp at hg
  | cons a rest ih =>
    by_cases ha : equalFold a.id ng.id = true
    · have ha2 : (fun h => equalFold h.id ng.id) a = true := ha
      have hfind : List.find? (fun h => equalFold h.id ng.id) (a :: rest)
          = some a := List.find?_cons_of_pos _ ha2
      constructor
      · intro hnone
        rw [hfind] at hnone
        simp at hnone
      · intro g hg
        rw [hfind] at hg
        have hga : g = a := by injection hg with h1; exact h1.symm
        subst hga
        constructor
        · rintro ⟨hmin, hmax⟩
          simp [register, ha, hmin, hmax]
        · intro hne
          have hcond : (g.minSize == ng.minSize && g.maxSize == ng.maxSize)
              = false := by
            by_contra hcon
            simp only [Bool.not_eq_false, Bool.and_eq_true, beq_iff_eq] at hcon
            exact hne hcon
          have hidx : (g :: rest).findIdx (fun h => equalFold h.id ng.id)
              = 0 := by
            rw [List.findIdx_cons]
            simp [ha]
          refine ⟨?_, ?_⟩
          · simp [register, ha, hcond, hidx]
          · simp [register, ha, hcond]
    · obtain ⟨ih1, ih2⟩ := ih
      have ha2 : ¬(fun h => equalFold h.id ng.id) a = true := ha
      have hfind : List.find? (fun h => equalFold h.id ng.id) (a :: rest)
          = List.find? (fun h => equalFold h.id ng.id) rest :=
        List.find?_cons_of_neg _ ha2
      have hreg : register (a :: rest) ng
          = (a :: (register rest ng).1, (register rest ng).2) := by
        simp [register, ha]
      constructor
      · intro hnone
        rw [hfind] at hnone
        rw [hreg, ih1 hnone]
        rfl
      · intro g hg
        rw [hfind] at hg
        obtain ⟨c1, c2⟩ := ih2 g hg
        constructor
        · intro hsame
          rw [hreg, c1 hsame]
        · intro hne
          obtain ⟨e1, e2⟩ := c2 hne
          have hidx : (a :: rest).findIdx (fun h => equalFold h.id ng.id)
              = rest.findIdx (fun h => equalFold h.id ng.id) + 1 := by
            rw [List.findIdx_cons]
            simp [ha]
          refine ⟨?_, ?_⟩
          · rw [hreg, e1, hidx]
            rfl
          · rw [hreg]
            simpa using e2

/-- C2 witness: registering a group whose id matches an existing record up
to case but whose sizes differ replaces that record in place, returns
`true`, and keeps the registered count at one. -/
theorem register_correct_witness :
    ([⟨"A", 1, 5, .ok []⟩] : List NodeGroup).find?
        (fun h => equalFold h.id "a") = some ⟨"A", 1, 5, .ok []⟩
    ∧ register [⟨"A", 1, 5, .ok []⟩] ⟨"a", 2, 6, .ok []⟩
      = ([⟨"a", 2, 6, .ok []⟩], true)
    ∧ (register [⟨"A", 1, 5, .ok []⟩] ⟨"a", 2, 6, .ok []⟩).1.length = 1 := by
  have h := ((register_correct [⟨"A", 1, 5, .ok []⟩] ⟨"a", 2, 6, .ok []⟩).2
    ⟨"A", 1, 5, .ok []⟩ rfl).2 (by simp)
  exact ⟨rfl, by rw [h.1]; rfl, h.2⟩

end AzureDirect
